import Mathlib

/-!
Verification of the note-extraction and text-formatting pipeline of the
obsidian-to-anki plugin (sources: `src/file.ts`, `src/note.ts`, `src/format.ts`).

The TypeScript sources are shallowly embedded below.  JavaScript strings are
modelled as Lean `String`s (positions are character offsets; all inputs of
interest are ASCII, where JS UTF-16 indices coincide with character indices).
JS objects used as string-keyed dictionaries are modelled as insertion-ordered
association lists `List (String × String)`; JS `undefined` used as an object
key coerces to the string key "undefined", and appending to a missing field
(`obj[k] += s` with `obj[k] === undefined`) stores `"undefined" ++ s` — both
behaviours are reproduced exactly.  The external markdown renderer
(`showdown`'s `makeHtml`, used inside `FormatConverter.format`) is not part of
this repository, so field formatting is abstracted as a parameter
`fmt : String → Bool → Bool → String` mirroring `FormatConverter.format`'s
signature `(text, cloze, highlights_to_cloze)`; the cloze-conversion stage of
the formatter, which the claims address directly, is embedded concretely.
-/

/-! ## Generic JS-string helpers -/

/-- JS `Array.prototype.includes` over an `Option` value: `includes(null)` and
`includes(NaN)` are `false`, modelled by `none`. -/
def jsIncludes (l : List Nat) : Option Nat → Bool
  | some n => l.contains n
  | none => false

/-- Digits of a decimal numeral to a `Nat` (used for JS `parseInt` on the
all-digit capture groups produced by the `(\d+)` patterns in the sources). -/
def natOfDigits (ds : List Char) : Nat :=
  ds.foldl (fun acc c => 10 * acc + (c.toNat - '0'.toNat)) 0

/-- JS `parseInt` restricted to the shapes that occur in the sources: a string
whose leading characters are decimal digits parses to that number, anything
else is `NaN`, modelled as `none`.  (`parseInt(undefined)` is also `NaN`.) -/
def jsParseInt (s : String) : Option Nat :=
  let ds := s.toList.takeWhile Char.isDigit
  if ds.isEmpty then none else some (natOfDigits ds)

/-- Does `sub` occur at the head of `s`?  (Bool-valued, by direct recursion, so
that facts about it are easy to prove.) -/
def leadsWith : List Char → List Char → Bool
  | [], _ => true
  | _ :: _, [] => false
  | a :: as, b :: bs => a = b && leadsWith as bs

/-- JS `String.prototype.indexOf`: index of the first occurrence of `sub` in
`s`, `none` when absent (JS returns `-1`; the sources only call it when the
needle is a capture group of the haystack, so it is always found). -/
def strIndexOfAux (sub : List Char) : List Char → Nat → Option Nat
  | s, k =>
    if leadsWith sub s then some k
    else match s with
      | [] => none
      | _ :: rest => strIndexOfAux sub rest (k + 1)

def strIndexOf (s sub : List Char) : Option Nat :=
  strIndexOfAux sub s 0

/-- Insertion-ordered string dictionary (JS object) lookup. -/
def lookupA {α : Type} (m : List (String × α)) (k : String) : Option α :=
  match m.find? (fun kv => kv.1 = k) with
  | some kv => some kv.2
  | none => none

/-- JS object key for a possibly-`undefined` value: `obj[undefined]` reads the
string key `"undefined"`. -/
def keyStr (t : Option String) : String :=
  t.getD "undefined"

/-- JS `obj[k] = v`: update in place when the key exists (keeping its
position), otherwise append the new key. -/
def jsSet : List (String × String) → String → String → List (String × String)
  | [], k, v => [(k, v)]
  | (k0, v0) :: rest, k, v =>
    if k0 = k then (k0, v) :: rest else (k0, v0) :: jsSet rest k v

/-- JS `obj[k] += v`: append to the existing value when the key exists;
otherwise `obj[k]` is `undefined` and `undefined + v` stores `"undefined" ++ v`
under a fresh key. -/
def jsAddToField : List (String × String) → String → String → List (String × String)
  | [], k, v => [(k, "undefined" ++ v)]
  | (k0, v0) :: rest, k, v =>
    if k0 = k then (k0, v0 ++ v) :: rest else (k0, v0) :: jsAddToField rest k v

def fieldKeys (m : List (String × String)) : List String :=
  m.map Prod.fst

/-- JS `String.prototype.trim` (drop leading and trailing whitespace). -/
def trimL (cs : List Char) : List Char :=
  ((cs.dropWhile Char.isWhitespace).reverse.dropWhile Char.isWhitespace).reverse

def jsTrim (s : String) : String :=
  String.mk (trimL s.toList)

/-- JS `String.prototype.split` with a one-character separator (the only
separators the sources use are `'\n'` and `' '`): note that splitting the
empty string yields `[""]`, a one-element list. -/
def splitCharL (sep : Char) : List Char → List (List Char)
  | [] => [[]]
  | c :: rest =>
    let r := splitCharL sep rest
    if c = sep then [] :: r
    else
      match r with
      | h :: t => (c :: h) :: t
      | [] => [[c]]

def jsSplitOn (s : String) (sep : String) : List String :=
  (splitCharL (sep.toList.headD ' ') s.toList).map String.mk

/-- JS `String.prototype.startsWith`. -/
def strStarts (s p : String) : Bool :=
  leadsWith p.toList s.toList

/-! ## `format.ts`: the cloze-conversion stage

`CLOZE_REGEXP = /(?:(?<!{){(?:c?(\d+)[:|])?(?!{))((?:[^\n][\n]?)+?)(?:(?<!})}(?!}))/g`

The replacement callback `cloze_repl` reads the module-level counter
`clozeUnsetNum` (initially `1`); the statement `clozeUnsetNum += 1` is
commented out in the source (`// clozeUnsetNum += 1 // FIXME: make it
flexible`), so the counter is never incremented.  `curly_to_cloze` performs
the global replacement and then resets the counter to `1`.  The counter is
threaded explicitly below. -/

/-- Parse the optional numeric prefix `c?(\d+)[:|]` directly after the opening
brace; returns the digit group and the remaining characters.  (Shrinking the
greedy `\d+` can never help, since the separator `:`/`|` is not a digit, so
maximal-munch followed by a separator check is exact.) -/
def clozeNumGroup (cs : List Char) : Option (List Char × List Char) :=
  let core : List Char → Option (List Char × List Char) := fun l =>
    let ds := l.takeWhile Char.isDigit
    match l.dropWhile Char.isDigit with
    | ':' :: r => if ds.isEmpty then none else some (ds, r)
    | '|' :: r => if ds.isEmpty then none else some (ds, r)
    | _ => none
  match cs with
  | 'c' :: rest =>
    match core rest with
    | some r => some r
    | none => core cs
  | _ => core cs

/-- Lazy match of `((?:[^\n][\n]?)+?)` followed by `(?<!})}(?!})`: the content
grows one unit at a time (a non-newline character, greedily taking one
following newline) until a closing `}` whose neighbours are not `}` is found.
A unit boundary obtained by giving the optional newline back always sits on a
`\n`, where neither the closing brace nor a further unit can match, so those
backtracking branches are dead and are not represented. -/
def clozeContentRun : Nat → List Char → List Char → Option (List Char × List Char)
  | _, _, [] => none
  | 0, _, _ :: _ => none
  | fuel + 1, acc, c :: '\n' :: '}' :: r3 =>
    if c = '\n' then none
    else if r3.head? = some '}' then clozeContentRun fuel (acc ++ [c, '\n']) ('}' :: r3)
    else some (acc ++ [c, '\n'], r3)
  | fuel + 1, acc, c :: '\n' :: r2 =>
    if c = '\n' then none
    else clozeContentRun fuel (acc ++ [c, '\n']) r2
  | fuel + 1, acc, c :: '}' :: r3 =>
    if c = '\n' then none
    else if c = '}' || r3.head? = some '}' then clozeContentRun fuel (acc ++ [c]) ('}' :: r3)
    else some (acc ++ [c], r3)
  | fuel + 1, acc, c :: rest =>
    if c = '\n' then none
    else clozeContentRun fuel (acc ++ [c]) rest

/-- Each step above consumes at least one character, so fuel equal to the
text length is sufficient (fuel `0` with a nonempty list is unreachable). -/
def clozeContent (acc : List Char) (cs : List Char) : Option (List Char × List Char) :=
  clozeContentRun cs.length acc cs

/-- Attempt a `CLOZE_REGEXP` match whose opening `{` has just been consumed
(`cs` is the text after it); yields the numeric group (if any), the content
group, and the rest of the text after the closing brace.  The optional prefix
group backtracks: when the prefix parses but the rest fails, the match is
retried with the prefix characters as content. -/
def clozeNoNum (cs : List Char) : Option (Option (List Char) × List Char × List Char) :=
  if cs.head? = some '{' then none
  else
    match clozeContent [] cs with
    | some (content, rest) => some (none, content, rest)
    | none => none

def clozeMatchAfterBrace (cs : List Char) : Option (Option (List Char) × List Char × List Char) :=
  match clozeNumGroup cs with
  | some (ds, cs2) =>
    if cs2.head? = some '{' then clozeNoNum cs
    else
      match clozeContent [] cs2 with
      | some (content, rest) => some (some ds, content, rest)
      | none => clozeNoNum cs
  | none => clozeNoNum cs

/-- `FormatConverter.cloze_repl(_1, matchId, matchContent)`: explicit numbers
are honoured verbatim; an unnumbered span uses the current value of
`clozeUnsetNum`, which is NOT incremented (the increment is commented out in
the source). -/
def cloze_repl (matchId : Option (List Char)) (matchContent : List Char)
    (clozeUnsetNum : Nat) : List Char :=
  match matchId with
  | none =>
    ('\x7b' :: '\x7b' :: 'c' :: (toString clozeUnsetNum).toList)
      ++ (':' :: ':' :: matchContent) ++ ['\x7d', '\x7d']
  | some ds =>
    ('\x7b' :: '\x7b' :: 'c' :: ds) ++ (':' :: ':' :: matchContent) ++ ['\x7d', '\x7d']

/-- Global replacement pass of `CLOZE_REGEXP`; `prev` is the character just
before the current position in the ORIGINAL text (for the `(?<!{)` and
`(?<!})` lookbehinds), `n` the counter value.  Each loop step consumes at
least one character, so `fuel` initialised to the text length suffices. -/
def clozeScan : Nat → Option Char → List Char → Nat → List Char
  | 0, _, cs, _ => cs
  | _ + 1, _, [], _ => []
  | fuel + 1, prev, '{' :: rest, n =>
    if prev = some '{' then '{' :: clozeScan fuel (some '{') rest n
    else
      match clozeMatchAfterBrace rest with
      | some (g1, content, rest2) =>
        cloze_repl g1 content n ++ clozeScan fuel (some '}') rest2 n
      | none => '{' :: clozeScan fuel (some '{') rest n
  | fuel + 1, _, c :: rest, n => c :: clozeScan fuel (some c) rest n

/-- `FormatConverter.curly_to_cloze`: replace every `CLOZE_REGEXP` match via
`cloze_repl`, then reset `clozeUnsetNum` to `1`.  Returns the new text and the
counter value after the call. -/
def curly_to_cloze (text : String) (clozeUnsetNum : Nat) : String × Nat :=
  (String.mk (clozeScan text.toList.length none text.toList clozeUnsetNum), 1)

/-! ## `note.ts`: data model and shared constants -/

/-- `AnkiConnectNote` (the payload template cloned in `parse`): model name is
`Option String` because the sources can assign JS `undefined` to it. -/
structure AnkiNote where
  modelName : Option String
  deckName : String
  fields : List (String × String)
  tags : List String
  deriving Repr, DecidableEq

/-- The slice of `FileData` (settings) consumed by the embedded code. -/
structure FileData where
  fields_dict : List (String × List String)
  curly_cloze : Bool
  highlights_to_cloze : Bool
  template : AnkiNote
  file_link_fields : List (String × String)
  context_fields : List (String × String)
  add_obs_tags : Bool
  EXISTING_IDS : List Nat
  comment : Bool
  deriving Repr, DecidableEq

/-- Abstraction of `FormatConverter.format (text, cloze, highlights_to_cloze)`
(its markdown-rendering stage calls the external `showdown` library). -/
abbrev Fmt : Type := String → Bool → Bool → String

/-- `note.ts`: `export const CLOZE_ERROR: number = 42`. -/
def CLOZE_ERROR : Nat := 42

/-- `note.ts`: `export const NOTE_TYPE_ERROR: number = 69`. -/
def NOTE_TYPE_ERROR : Nat := 69

/-- `note.ts`: `const TAG_PREFIX: string = 'Tags: '`. -/
def TAG_MARKER : String := "Tags: "

/-- `note.ts`: `export const TAG_SEP: string = ' '`. -/
def TAG_SEP : String := " "

/-- ASCII lower-casing, as JS `toLowerCase` behaves on the ASCII note-type
names at issue. -/
def lowerStr (s : String) : String :=
  String.mk (s.toList.map Char.toLower)

/-- Does `sub` occur anywhere in `s` (JS `String.prototype.includes`)? -/
def containsSub : List Char → List Char → Bool
  | s, sub =>
    if leadsWith sub s then true
    else match s with
      | [] => false
      | _ :: rest => containsSub rest sub

/-- `this.note_type.toLowerCase().includes('cloze')` on a possibly-undefined
note type (the sources only evaluate it when the type is a string). -/
def isClozeType (t : Option String) : Bool :=
  containsSub (lowerStr (keyStr t)).toList "cloze".toList

/-- `ANKI_CLOZE_REGEXP = /{{c\d+::[\s\S]+?}}/` tested at one position:
`{{c`, one or more digits, `::`, then at least one character followed by
`}}` somewhere later (the lazy `[\s\S]+?` only affects which match is taken,
not whether one exists). -/
def hasDoubleClose : List Char → Bool
  | '}' :: '}' :: _ => true
  | _ :: rest => hasDoubleClose rest
  | [] => false

def ankiClozeAt (cs : List Char) : Bool :=
  match cs with
  | '{' :: '{' :: 'c' :: rest =>
    let ds := rest.takeWhile Char.isDigit
    match rest.dropWhile Char.isDigit with
    | ':' :: ':' :: r3 =>
      !ds.isEmpty && (match r3 with
        | [] => false
        | _ :: r4 => hasDoubleClose r4)
    | _ => false
  | _ => false

/-- `has_clozes(text)`: does `ANKI_CLOZE_REGEXP` match anywhere in `text`? -/
def has_clozes : List Char → Bool
  | [] => false
  | c :: rest => ankiClozeAt (c :: rest) || has_clozes rest

/-- `note_has_clozes(note)`: some field value has a cloze deletion. -/
def note_has_clozes (fields : List (String × String)) : Bool :=
  fields.any (fun kv => has_clozes kv.2.toList)

/-- `removeTags`: `text.replaceAll(/(#[^\s]*)/gm, '')` — a `#` and the maximal
following run of non-whitespace characters are deleted. -/
def removeTagsRun : Nat → List Char → List Char
  | _, [] => []
  | 0, cs => cs
  | fuel + 1, '#' :: rest => removeTagsRun fuel (rest.dropWhile (fun c => !c.isWhitespace))
  | fuel + 1, c :: rest => c :: removeTagsRun fuel rest

/-- Each step consumes at least one character, so fuel equal to the text
length is sufficient. -/
def removeTagsL (cs : List Char) : List Char :=
  removeTagsRun cs.length cs

def removeTags (s : String) : String :=
  String.mk (removeTagsL s.toList)

/-- `removeBlockquotes`: `text.replaceAll(/^>\s?/gm, '')` — at each line
start, a `>` and at most one following whitespace character are deleted; when
that whitespace is itself a newline the next position is again a line start. -/
def removeBlockquotesL : Bool → List Char → List Char
  | _, [] => []
  | true, '>' :: c :: rest =>
    if c.isWhitespace then removeBlockquotesL (c = '\n') rest
    else removeBlockquotesL false (c :: rest)
  | true, ['>'] => []
  | _, c :: rest => c :: removeBlockquotesL (c = '\n') rest

def removeBlockquotes (s : String) : String :=
  String.mk (removeBlockquotesL true s.toList)

/-- First match of `/(?:<!--)?ID: (\d+)/` starting exactly here: the optional
`<!--` is tried first (greedy), then the literal `ID: ` and one or more
digits; returns the digit group. -/
def idGroupAt (cs : List Char) : Option (List Char) :=
  let core : List Char → Option (List Char) := fun l =>
    match l with
    | 'I' :: 'D' :: ':' :: ' ' :: r =>
      let ds := r.takeWhile Char.isDigit
      if ds.isEmpty then none else some ds
    | _ => none
  match cs with
  | '<' :: '!' :: '-' :: '-' :: r =>
    match core r with
    | some ds => some ds
    | none => core cs
  | _ => core cs

/-- Leftmost match of `/(?:<!--)?ID: (\d+)/` in `cs`: returns the characters
before the match and the digit group. -/
def findIdMarker (pre : List Char) : List Char → Option (List Char × List Char)
  | [] => none
  | c :: rest =>
    match idGroupAt (c :: rest) with
    | some ds => some (pre, ds)
    | none => findIdMarker (pre ++ [c]) rest

/-! ## `note.ts`: block notes (`class Note`) -/

/-- JS `.` (no `s` flag): any character except a line terminator. -/
def dotChar (c : Char) : Bool :=
  !(c = '\n' || c = '\r')

/-- Constructor steps of `Note` (block note): trim, split on `\n`, strip a
trailing `ID: <n>` line, then a trailing `Tags: ...` line.  Returns the
remaining lines, the identifier and the tag list. -/
def blockNoteInit (text : String) : List String × Option Nat × List String :=
  let split0 := jsSplitOn (jsTrim text) "\n"
  let idStep :=
    match split0.getLast? with
    | some last =>
      match findIdMarker [] last.toList with
      | some p => (split0.dropLast, some (natOfDigits p.2))
      | none => (split0, (none : Option Nat))
    | none => (split0, none)
  let tagStep :=
    match idStep.1.getLast? with
    | some last =>
      if strStarts last TAG_MARKER then
        (idStep.1.dropLast, jsSplitOn (last.drop TAG_MARKER.length) TAG_SEP)
      else (idStep.1, ([] : List String))
    | none => (idStep.1, [])
  (tagStep.1, idStep.2, tagStep.2)

/-- `Note.fieldFromLine`: the first schema field whose `"<name>:"` prefix
starts the line selects that field and strips the prefix; otherwise the line
stays in the current field. -/
def fieldFromLine (field_names : List String) (current : String) (line : String) :
    String × String :=
  match field_names.find? (fun f => strStarts line (f ++ ":")) with
  | some f => (line.drop (f ++ ":").length, f)
  | none => (line, current)

/-- The line-accumulation loop of `Note.getFields` (before formatting):
fields start as `''` for every schema field, the current field starts at the
schema's first field (JS `undefined`, i.e. the key "undefined", for an empty
schema). -/
def noteFieldsLoop (field_names : List String) :
    List (String × String) → String → List String → List (String × String) × String
  | m, cur, [] => (m, cur)
  | m, cur, line :: rest =>
    let p := fieldFromLine field_names cur line
    noteFieldsLoop field_names (jsAddToField m p.2 (p.1 ++ "\n")) p.2 rest

def noteRawFields (field_names : List String) (lines : List String) :
    List (String × String) × String :=
  noteFieldsLoop field_names (field_names.map (fun f => (f, "")))
    (field_names.headD "undefined") lines

/-- Trim each accumulated field and pass it through the formatter, trimming
the result (the common final loop of every `getFields`). -/
def formatFieldMap (m : List (String × String)) (fmt : Fmt) (cloze high : Bool) :
    List (String × String) :=
  m.map fun kv => (kv.1, jsTrim (fmt (jsTrim kv.2) cloze high))

/-- `Note.getFields` given the constructor state (`split_text` after the
ID/Tags pops, the schema's field list for the resolved type). -/
def Note_getFields (split_text : List String) (field_names : List String)
    (note_type : String) (fmt : Fmt) (curly high : Bool) : List (String × String) :=
  formatFieldMap (noteRawFields field_names (split_text.drop 1)).1 fmt
    (isClozeType (some note_type) && curly) high

/-! ## `note.ts`: inline notes (`class InlineNote`) -/

/-- Leftmost match of `InlineNote.TAG_REGEXP = /Tags: (.*)/`: characters
before the match, and the capture (rest of the line). -/
def tagsMarkerAt (cs : List Char) : Option (List Char) :=
  match cs with
  | 'T' :: 'a' :: 'g' :: 's' :: ':' :: ' ' :: r => some (r.takeWhile dotChar)
  | _ => none

def findTagsMarker (pre : List Char) : List Char → Option (List Char × List Char)
  | [] => none
  | c :: rest =>
    match tagsMarkerAt (c :: rest) with
    | some g => some (pre, g)
    | none => findTagsMarker (pre ++ [c]) rest

/-- `InlineNote.getIdentifier`: on a match of `/(?:<!--)?ID: (\d+)/` the text
is truncated before the match and trimmed, and the digits are parsed. -/
def InlineNote_getIdentifier (t : String) : String × Option Nat :=
  match findIdMarker [] t.toList with
  | some p => (jsTrim (String.mk p.1), some (natOfDigits p.2))
  | none => (t, none)

/-- `InlineNote.getTags`: on a match of `/Tags: (.*)/` the text is truncated
before the match and trimmed, and the capture is split on spaces. -/
def InlineNote_getTags (t : String) : String × List String :=
  match findTagsMarker [] t.toList with
  | some p => (jsTrim (String.mk p.1), jsSplitOn (String.mk p.2) TAG_SEP)
  | none => (t, [])

/-- Lazy body of `/\[(.*?)\]/` after an opening bracket: characters up to the
first `]`, none of them line terminators. -/
def scanToClose (acc : List Char) : List Char → Option (List Char × List Char)
  | [] => none
  | ']' :: rest => some (acc, rest)
  | c :: rest => if dotChar c then scanToClose (acc ++ [c]) rest else none

/-- Leftmost match of `InlineNote.TYPE_REGEXP = /\[(.*?)\]/`: the capture and
the text after the closing bracket. -/
def inlineTypeFind : List Char → Option (List Char × List Char)
  | [] => none
  | c :: rest =>
    if c = '[' then
      match scanToClose [] rest with
      | some r => some r
      | none => inlineTypeFind rest
    else inlineTypeFind rest

/-- `InlineNote.getNoteType` returns the bracketed capture and truncates the
text to what follows the match.  When the regex does not match, the source
dereferences `result.index` on `null` and THROWS a TypeError — modelled as
`none`. -/
def InlineNote_getNoteType (t : String) : Option (String × String) :=
  match inlineTypeFind t.toList with
  | some p => some (String.mk p.1, String.mk p.2)
  | none => none

/-- The word-accumulation loop of `InlineNote.getFields` (before formatting). -/
def inlineFieldsLoop (field_names : List String) :
    List (String × String) → String → List String → List (String × String) × String
  | m, cur, [] => (m, cur)
  | m, cur, word :: rest =>
    let hit := field_names.find? (fun f => word = f ++ ":")
    let current := hit.getD cur
    let w := if hit.isSome then "" else word
    inlineFieldsLoop field_names (jsAddToField m current (w ++ " ")) current rest

def inlineRawFields (field_names : List String) (words : List String) :
    List (String × String) × String :=
  inlineFieldsLoop field_names (field_names.map (fun f => (f, "")))
    (field_names.headD "undefined") words

/-- `InlineNote.getFields` on the post-`getNoteType` text. -/
def InlineNote_getFields (text : String) (field_names : List String)
    (note_type : String) (fmt : Fmt) (curly high : Bool) : List (String × String) :=
  formatFieldMap (inlineRawFields field_names (jsSplitOn text " ")).1 fmt
    (isClozeType (some note_type) && curly) high

/-! ## `note.ts`: callout notes (`class CalloutNote`) -/

/-- Match of `/^> \[!anki[:]?(?:.*)?\](?:-*\s*)?([^\n]*)\n([\S\s]*)/` against
the whole note text.  The greedy `(?:.*)?\]` selects the LAST `]` of the first
line; the greedy `(?:-*\s*)?` may swallow line breaks, backtracking until the
mandatory `\n` after the `([^\n]*)` capture can match. -/
def calloutMatch (cs : List Char) : Option (String × String) :=
  match cs with
  | '>' :: ' ' :: '[' :: '!' :: 'a' :: 'n' :: 'k' :: 'i' :: r0 =>
    let r1 := match r0 with
      | ':' :: r => r
      | _ => r0
    let line := r1.takeWhile (fun c => c ≠ '\n')
    let rest0 := r1.drop line.length
    if !(line.contains ']') || rest0.isEmpty then none
    else
      let lsuf := (line.reverse.takeWhile (fun c => c ≠ ']')).reverse
      let a2 := (lsuf ++ rest0).dropWhile (fun c => c = '-')
      let wsRun := a2.takeWhile Char.isWhitespace
      let a3 := a2.drop wsRun.length
      if a3.contains '\n' then
        some (String.mk (a3.takeWhile (fun c => c ≠ '\n')),
              String.mk ((a3.dropWhile (fun c => c ≠ '\n')).drop 1))
      else if wsRun.contains '\n' then
        some ("", String.mk ((wsRun.reverse.takeWhile (fun c => c ≠ '\n')).reverse ++ a3))
      else none
  | _ => none

/-- `CalloutNote.getFields`: `none` models the thrown TypeError when the
anchored regex does not match (`match[1]` on `null`); an empty Front or Back
after stripping yields the EMPTY field map (`return {}` in the source, after
a console.error).  The formatting flag is `this.curly_cloze` directly (the
note type is not consulted, unlike the other variants). -/
def CalloutNote_getFields (text : String) (field_names : List String)
    (fmt : Fmt) (curly high : Bool) : Option (List (String × String)) :=
  match calloutMatch text.toList with
  | none => none
  | some g =>
    let front := removeTags g.1
    let back := removeBlockquotes g.2
    if front = "" || back = "" then some []
    else
      let f0 := field_names.map (fun f => (f, ""))
      some (formatFieldMap (jsSet (jsSet f0 "Front" front) "Back" back) fmt curly high)

/-! ## `note.ts`: shared parse assembly (`AbstractNote.parse`) -/

/-- JS `\w`. -/
def isWordChar (c : Char) : Bool :=
  c.isAlphanum || c = '_'

/-- One pass of `OBS_TAG_REGEXP = /#(\w+)/g` over a field value: returns the
value with every match removed, and the list of captured tag names. -/
def obsTagScanRun : Nat → List Char → List Char × List String
  | _, [] => ([], [])
  | 0, cs => (cs, [])
  | fuel + 1, '#' :: rest =>
    let w := rest.takeWhile isWordChar
    if w.isEmpty then
      let p := obsTagScanRun fuel rest
      ('#' :: p.1, p.2)
    else
      let p := obsTagScanRun fuel (rest.drop w.length)
      (p.1, [String.mk w] ++ p.2)
  | fuel + 1, c :: rest =>
    let p := obsTagScanRun fuel rest
    (c :: p.1, p.2)

/-- Each step consumes at least one character, so fuel equal to the text
length is sufficient. -/
def obsTagScan (cs : List Char) : List Char × List String :=
  obsTagScanRun cs.length cs

/-- The `data.add_obs_tags` loop of `parse`: harvest `#word` tokens out of
every field (in field order) and strip them from the field text. -/
def harvestObsTags (fields : List (String × String)) :
    List (String × String) × List String :=
  fields.foldl
    (fun acc kv =>
      let p := obsTagScan kv.2.toList
      (acc.1 ++ [(kv.1, String.mk p.1)], acc.2 ++ p.2))
    ([], [])

/-- `FormatConverter.format_note_with_url`: append the external-link anchor to
the configured field. -/
def format_note_with_url (fields : List (String × String)) (fieldName url : String) :
    List (String × String) :=
  jsAddToField fields fieldName
    ("<br><a href=\"" ++ url ++ "\" class=\"obsidian-link\">Obsidian</a>")

/-- `FormatConverter.format_note_with_frozen_fields`: append the frozen text
to every field of the note.  (When the model name is missing from the frozen
dictionary the JS code throws; the theorems below only use this either with an
empty frozen dictionary — where `parse` skips the call — or under a hypothesis
that the model is present.) -/
def format_note_with_frozen_fields (fields : List (String × String)) (model : String)
    (frozen : List (String × List (String × String))) : List (String × String) :=
  fields.map fun kv =>
    (kv.1, kv.2 ++ ((lookupA ((lookupA frozen model).getD []) kv.1).getD "undefined"))

/-- Tail of `AbstractNote.parse` once the type is known and `getFields` has
produced `f0`: append the URL anchor, frozen fields, context, optionally
harvest `#tags`, then attach tags and deck. -/
def abstractParseTail (d : FileData) (note_type : Option String)
    (f0 : List (String × String)) (tags : List String) (identifier : Option Nat)
    (deck url context : String)
    (frozen : List (String × List (String × String))) : AnkiNote × Option Nat :=
  let f1 := if url ≠ "" then
      format_note_with_url f0 (keyStr (lookupA d.file_link_fields (keyStr note_type))) url
    else f0
  let f2 := if frozen ≠ [] then
      format_note_with_frozen_fields f1 (keyStr note_type) frozen
    else f1
  let f3 := if context ≠ "" then
      jsAddToField f2 (keyStr (lookupA d.context_fields (keyStr note_type))) context
    else f2
  let ht := if d.add_obs_tags then harvestObsTags f3 else (f3, [])
  ({ modelName := note_type, deckName := deck, fields := ht.1,
     tags := d.template.tags ++ (tags ++ ht.2) }, identifier)

/-- `Note.parse` (block note), from the raw matched text: when the first line
is not a schema key the cloned template is returned with only `modelName` set
and the sentinel identifier `NOTE_TYPE_ERROR` — `getFields` is never run. -/
def Note_parse (text : String) (d : FileData) (fmt : Fmt) (deck url : String)
    (frozen : List (String × List (String × String))) (context : String) :
    AnkiNote × Option Nat :=
  let init := blockNoteInit text
  let note_type := init.1.head?
  match lookupA d.fields_dict (keyStr note_type) with
  | none => ({ d.template with modelName := note_type }, some NOTE_TYPE_ERROR)
  | some fns =>
    let f0 := Note_getFields init.1 fns (keyStr note_type) fmt d.curly_cloze d.highlights_to_cloze
    abstractParseTail d note_type f0 init.2.2 init.2.1 deck url context frozen

/-! ## `note.ts`: pattern-defined notes (`class RegexNote`) -/

/-- Constructor of `RegexNote`: pop the identifier group (when requested),
then the tags group (when requested), off the back of the match array. -/
def regexNoteInit (m : List (Option String)) (tags id : Bool) :
    List (Option String) × Option Nat × List String :=
  let identifier := if id then jsParseInt (keyStr (m.getLast?.getD none)) else none
  let m1 := if id then m.dropLast else m
  let tagList :=
    if tags then jsSplitOn ((keyStr (m1.getLast?.getD none)).drop TAG_MARKER.length) TAG_SEP
    else []
  let m2 := if tags then m1.dropLast else m1
  (m2, identifier, tagList)

/-- `RegexNote.getFields`: capture groups are assigned positionally to the
schema's fields; an absent or empty group stores `''`. -/
def regexAssignLoop (field_names : List String) :
    List (String × String) → Nat → List (Option String) → List (String × String)
  | m, _, [] => m
  | m, i, g :: rest =>
    regexAssignLoop field_names
      (jsSet m (keyStr (field_names.get? i))
        (match g with
         | some s => if s = "" then "" else s
         | none => ""))
      (i + 1) rest

def RegexNote_getFields (m2 : List (Option String)) (field_names : List String)
    (note_type : String) (fmt : Fmt) (curly high : Bool) : List (String × String) :=
  let assigned := regexAssignLoop field_names
    (field_names.map (fun f => (f, ""))) 0 (m2.drop 1)
  formatFieldMap assigned fmt (isClozeType (some note_type) && curly) high

/-- Fields of a pattern-defined note after the URL / frozen-field / context
appends of `RegexNote.parse` (the state on which the cloze check runs). -/
def regexAssembleFields (d : FileData) (note_type : String)
    (f0 : List (String × String)) (url context : String)
    (frozen : List (String × List (String × String))) : List (String × String) :=
  let f1 := if url ≠ "" then
      format_note_with_url f0 (keyStr (lookupA d.file_link_fields note_type)) url
    else f0
  let f2 := if frozen ≠ [] then
      format_note_with_frozen_fields f1 note_type frozen
    else f1
  if context ≠ "" then
    jsAddToField f2 (keyStr (lookupA d.context_fields note_type)) context
  else f2

/-- `RegexNote.parse`: when the note type is a cloze type but no field
contains a cloze deletion, the identifier is overwritten with `CLOZE_ERROR`
("don't add this note"). -/
def RegexNote_parse (m : List (Option String)) (note_type : String) (d : FileData)
    (stags sid : Bool) (fmt : Fmt) (deck url context : String)
    (frozen : List (String × List (String × String))) : AnkiNote × Option Nat :=
  let init := regexNoteInit m stags sid
  let fns := (lookupA d.fields_dict note_type).getD []
  let f0 := RegexNote_getFields init.1 fns note_type fmt d.curly_cloze d.highlights_to_cloze
  let f3 := regexAssembleFields d note_type f0 url context frozen
  let identifier :=
    if isClozeType (some note_type) && !(note_has_clozes f3) then some CLOZE_ERROR
    else init.2.1
  ({ modelName := some note_type, deckName := deck, fields := f3,
     tags := d.template.tags ++ init.2.2 }, identifier)

/-! ## `file.ts`: helpers -/

/-- `id_to_str`: textual form of an identifier marker. -/
def id_to_str (identifier : Nat) (inline comment : Bool) : String :=
  let r := "ID: " ++ toString identifier
  let r := if comment then "<!--" ++ r ++ "-->" else r
  if inline then r ++ " " else r ++ "\n"

/-- Stable insertion into a list sorted by first component (JS
`Array.prototype.sort` with comparator `a[0] - b[0]` is stable). -/
def insertByPos (x : Nat × String) : List (Nat × String) → List (Nat × String)
  | [] => [x]
  | y :: ys => if y.1 < x.1 then y :: insertByPos x ys else x :: y :: ys

def sortByPos : List (Nat × String) → List (Nat × String)
  | [] => []
  | x :: xs => insertByPos x (sortByPos xs)

/-- `string_insert(text, position_inserts)`: sort by position, then insert
left to right, shifting each position by the accumulated length of the
already-inserted strings. -/
def string_insert (text : String) (position_inserts : List (Nat × String)) : String :=
  ((sortByPos position_inserts).foldl
    (fun acc ins =>
      (acc.1.take (ins.1 + acc.2) ++ ins.2 ++ acc.1.drop (ins.1 + acc.2),
       acc.2 + ins.2.length))
    (text, 0)).1

/-- `contained_in(span, spans)`: membership with ±1 leeway at each endpoint. -/
def contained_in (span : Nat × Nat) (spans : List (Nat × Nat)) : Bool :=
  spans.any (fun element =>
    span.1 + 1 ≥ element.1 && span.2 ≤ element.2 + 1)

/-- One-position match of
`double_regexp = /(?:\r\n|\r|\n)((?:\r\n|\r|\n)(?:<!--)?ID: \d+)/g`:
returns the capture group (everything but the first newline) and the text
after the match. -/
def parseNewline : List Char → Option (List Char × List Char)
  | '\r' :: '\n' :: r => some (['\r', '\n'], r)
  | '\r' :: r => some (['\r'], r)
  | '\n' :: r => some (['\n'], r)
  | _ => none

def doubleMatchAt (cs : List Char) : Option (List Char × List Char) :=
  match parseNewline cs with
  | none => none
  | some p1 =>
    match parseNewline p1.2 with
    | none => none
    | some p2 =>
      let cmtStep : List Char × List Char :=
        match p2.2 with
        | '<' :: '!' :: '-' :: '-' :: r => (['<', '!', '-', '-'], r)
        | _ => ([], p2.2)
      match cmtStep.2 with
      | 'I' :: 'D' :: ':' :: ' ' :: r4 =>
        let ds := r4.takeWhile Char.isDigit
        if ds.isEmpty then none
        else some (p2.1 ++ cmtStep.1 ++ ('I' :: 'D' :: ':' :: ' ' :: ds),
                   r4.dropWhile Char.isDigit)
      | _ => none

/-- Global replacement of `double_regexp` with `'$1'` (drop the first
newline of each match).  Every loop step consumes at least one character, so
fuel initialised to the text length suffices; with fuel `0` the remaining
text is returned unchanged. -/
def fixNewlineScan : Nat → List Char → List Char
  | 0, cs => cs
  | _ + 1, [] => []
  | fuel + 1, c :: rest =>
    match doubleMatchAt (c :: rest) with
    | some p => p.1 ++ fixNewlineScan fuel p.2
    | none => c :: fixNewlineScan fuel rest

/-- `AllFile.fix_newline_ids`: collapse a blank line introduced directly
before an identifier-marker line.  Note that this runs on EVERY `writeIDs`
call, on the whole document. -/
def fix_newline_ids (s : String) : String :=
  String.mk (fixNewlineScan s.toList.length s.toList)

/-- Decidable "no `double_regexp` match anywhere in the text". -/
def noDoubleMatch : List Char → Bool
  | [] => true
  | c :: rest => (doubleMatchAt (c :: rest)).isNone && noDoubleMatch rest

/-- `AbstractFile.setup_global_tags`: the first capture of `TAG_REGEXP` when
it matches, `''` otherwise (the match result is provided abstractly — the
regex itself comes from per-user settings). -/
def setup_global_tags (tagMatch : Option String) : String :=
  match tagMatch with
  | some s => s
  | none => ""

/-! ## `file.ts`: the scanner (`AllFile`) -/

/-- The mutable lists of one `AllFile` scan that the per-match handlers
touch. -/
structure ScanState where
  notes_to_add : List AnkiNote
  id_indexes : List Nat
  inline_notes_to_add : List AnkiNote
  inline_id_indexes : List Nat
  regex_notes_to_add : List AnkiNote
  regex_id_indexes : List Nat
  callout_notes_to_add : List AnkiNote
  callout_id_indexes : List Nat
  notes_to_edit : List (AnkiNote × Option Nat)
  ignore_spans : List (Nat × Nat)
  deriving Repr, DecidableEq

def emptyScanState : ScanState :=
  ⟨[], [], [], [], [], [], [], [], [], []⟩

/-- Console output of the per-match handlers. -/
inductive Report where
  | unknownType (modelName : Option String)
  | danglingId (identifier : Option Nat)
  deriving Repr, DecidableEq

/-- One match of `NOTE_REGEXP` or `CALLOUT_REGEXP`, etc.: match start offset,
full match text, first capture group. -/
structure NoteMatch where
  index : Nat
  full : String
  group1 : String
  deriving Repr, DecidableEq

/-- The insertion position recorded for block / inline / callout creations:
`noteMatch.index + noteMatch[0].indexOf(noteMatch[1]) + noteMatch[1].length`
("essentially the index of the end of the first capture group", per the
source comment — it is computed through the FIRST occurrence of the captured
text inside the whole match). -/
def captureEndPosition (m : NoteMatch) : Nat :=
  m.index + (strIndexOf m.full.toList m.group1.toList).getD 0 + m.group1.length

/-- Per-match body of `AllFile.scanNotes`, applied to the parsed result and
the recorded position. -/
def scanNoteStep (st : ScanState) (parsed : AnkiNote × Option Nat) (position : Nat)
    (global_tags : String) (existing : List Nat) : ScanState × List Report :=
  match parsed.2 with
  | none =>
    let note := { parsed.1 with tags := parsed.1.tags ++ jsSplitOn global_tags TAG_SEP }
    ({ st with notes_to_add := st.notes_to_add ++ [note],
               id_indexes := st.id_indexes ++ [position] }, [])
  | some i =>
    if !(existing.contains i) then
      if i = CLOZE_ERROR then (st, [])
      else if i = NOTE_TYPE_ERROR then (st, [Report.unknownType parsed.1.modelName])
      else (st, [Report.danglingId (some i)])
    else ({ st with notes_to_edit := st.notes_to_edit ++ [parsed] }, [])

/-- Per-match body of `AllFile.scanInlineNotes` (note: unlike the block and
callout scanners it has NO special case for `NOTE_TYPE_ERROR`). -/
def scanInlineNoteStep (st : ScanState) (parsed : AnkiNote × Option Nat) (position : Nat)
    (global_tags : String) (existing : List Nat) : ScanState × List Report :=
  match parsed.2 with
  | none =>
    let note := { parsed.1 with tags := parsed.1.tags ++ jsSplitOn global_tags TAG_SEP }
    ({ st with inline_notes_to_add := st.inline_notes_to_add ++ [note],
               inline_id_indexes := st.inline_id_indexes ++ [position] }, [])
  | some i =>
    if !(existing.contains i) then
      if i = CLOZE_ERROR then (st, [])
      else (st, [Report.danglingId (some i)])
    else ({ st with notes_to_edit := st.notes_to_edit ++ [parsed] }, [])

/-- Per-match body of `AllFile.scanCalloutNotes`. -/
def scanCalloutNoteStep (st : ScanState) (parsed : AnkiNote × Option Nat) (position : Nat)
    (global_tags : String) (existing : List Nat) : ScanState × List Report :=
  match parsed.2 with
  | none =>
    let note := { parsed.1 with tags := parsed.1.tags ++ jsSplitOn global_tags TAG_SEP }
    ({ st with callout_notes_to_add := st.callout_notes_to_add ++ [note],
               callout_id_indexes := st.callout_id_indexes ++ [position] }, [])
  | some i =>
    if !(existing.contains i) then
      if i = CLOZE_ERROR then (st, [])
      else if i = NOTE_TYPE_ERROR then (st, [Report.unknownType parsed.1.modelName])
      else (st, [Report.danglingId (some i)])
    else ({ st with notes_to_edit := st.notes_to_edit ++ [parsed] }, [])

/-- One match of a custom (pattern-defined) regex, as fed to `RegexNote`. -/
structure RegexMatchArr where
  arr : List (Option String)
  index : Nat
  deriving Repr, DecidableEq

def regexFullLength (m : RegexMatchArr) : Nat :=
  (keyStr (m.arr.head?.getD none)).length

/-- Per-match body of `AllFile.search`: the span is claimed first; a
`CLOZE_ERROR` outcome pops it back off (releasing the region); a creation
records the insertion position `match.index + match[0].length` — the end of
the WHOLE match. -/
def searchStep (st : ScanState) (m : RegexMatchArr) (note_type : String)
    (stags sid : Bool) (d : FileData) (fmt : Fmt) (deck url context global_tags : String)
    (frozen : List (String × List (String × String))) : ScanState × List Report :=
  let st1 := { st with ignore_spans :=
    st.ignore_spans ++ [(m.index, m.index + regexFullLength m)] }
  let parsed := RegexNote_parse m.arr note_type d stags sid fmt deck url context frozen
  if sid then
    if !(jsIncludes d.EXISTING_IDS parsed.2) then
      if parsed.2 = some CLOZE_ERROR then
        ({ st1 with ignore_spans := st1.ignore_spans.dropLast }, [])
      else (st1, [Report.danglingId parsed.2])
    else ({ st1 with notes_to_edit := st1.notes_to_edit ++ [parsed] }, [])
  else
    if parsed.2 = some CLOZE_ERROR then
      ({ st1 with ignore_spans := st1.ignore_spans.dropLast }, [])
    else
      let note := { parsed.1 with tags := parsed.1.tags ++ jsSplitOn global_tags TAG_SEP }
      ({ st1 with regex_notes_to_add := st1.regex_notes_to_add ++ [note],
                  regex_id_indexes := st1.regex_id_indexes ++ [m.index + regexFullLength m] },
       [])

/-! ## `file.ts`: the rewriter (`AllFile.writeIDs`) -/

/-- The state consumed by `writeIDs`: the document text, the per-category
insertion positions, the lengths of the per-category creation lists, and the
identifier list returned by the remote store (positionally correlated with
`all_notes_to_add = notes_to_add ++ inline ++ regex ++ callout`). -/
structure WriteState where
  file : String
  id_indexes : List Nat
  inline_id_indexes : List Nat
  regex_id_indexes : List Nat
  callout_id_indexes : List Nat
  notes_to_add_len : Nat
  inline_notes_to_add_len : Nat
  note_ids : List (Option Nat)
  comment : Bool
  deriving Repr, DecidableEq

/-- One `forEach` block of `writeIDs`: for the `index`-th position, read
`note_ids[index + offset]`; a missing or `null` or `0` identifier (JS falsy)
is skipped. -/
def buildInserts (idxs : List Nat) (note_ids : List (Option Nat)) (offset : Nat)
    (mk : Nat → String) : List (Nat × String) :=
  (List.range idxs.length).foldl
    (fun acc index =>
      match note_ids.get? (index + offset) with
      | some (some identifier) =>
        if identifier = 0 then acc
        else acc ++ [((idxs.get? index).getD 0, mk identifier)]
      | _ => acc)
    []

/-- `AllFile.writeIDs`.  Offsets into `note_ids`: block notes at `0`
("regular"), inline notes at `notes_to_add.length` ("since regular then
inline"), pattern-defined notes at `notes_to_add.length +
inline_notes_to_add.length` ("since regular then inline then regex") — and
callout notes again at `0` (`this.note_ids[index]` in the source, with no
offset). -/
def writeIDs (st : WriteState) : String :=
  let normalInserts := buildInserts st.id_indexes st.note_ids 0
    (fun i => id_to_str i false st.comment)
  let inlineInserts := buildInserts st.inline_id_indexes st.note_ids st.notes_to_add_len
    (fun i => id_to_str i true st.comment)
  let regexInserts := buildInserts st.regex_id_indexes st.note_ids
    (st.notes_to_add_len + st.inline_notes_to_add_len)
    (fun i => "\n" ++ id_to_str i false st.comment)
  let calloutInserts := buildInserts st.callout_id_indexes st.note_ids 0
    (fun i => "> " ++ id_to_str i false st.comment)
  fix_newline_ids
    (string_insert st.file (normalInserts ++ inlineInserts ++ regexInserts ++ calloutInserts))

/-! ## Helper lemmas -/

theorem fieldKeys_map_init (fns : List String) :
    fieldKeys (fns.map (fun f => (f, ""))) = fns := by
  induction fns with
  | nil => rfl
  | cons f rest ih => simp [fieldKeys] at ih ⊢; exact ih

theorem fieldKeys_jsAddToField (k v : String) :
    ∀ (m : List (String × String)), k ∈ fieldKeys m →
      fieldKeys (jsAddToField m k v) = fieldKeys m := by
  intro m
  induction m with
  | nil => intro h; simp [fieldKeys] at h
  | cons kv rest ih =>
    obtain ⟨k0, v0⟩ := kv
    intro h
    by_cases hk : k0 = k
    · simp [jsAddToField, hk, fieldKeys]
    · have hmem : k ∈ fieldKeys rest := by
        simp [fieldKeys] at h
        rcases h with h | h
        · exact absurd h.symm hk
        · simpa [fieldKeys] using h
      simp [jsAddToField, hk, fieldKeys, ih hmem]
      simpa [fieldKeys] using ih hmem

theorem fieldKeys_jsSet (k v : String) :
    ∀ (m : List (String × String)), k ∈ fieldKeys m →
      fieldKeys (jsSet m k v) = fieldKeys m := by
  intro m
  induction m with
  | nil => intro h; simp [fieldKeys] at h
  | cons kv rest ih =>
    obtain ⟨k0, v0⟩ := kv
    intro h
    by_cases hk : k0 = k
    · simp [jsSet, hk, fieldKeys]
    · have hmem : k ∈ fieldKeys rest := by
        simp [fieldKeys] at h
        rcases h with h | h
        · exact absurd h.symm hk
        · simpa [fieldKeys] using h
      simp [jsSet, hk, fieldKeys]
      simpa [fieldKeys] using ih hmem

theorem fieldKeys_formatFieldMap (m : List (String × String)) (fmt : Fmt) (c h : Bool) :
    fieldKeys (formatFieldMap m fmt c h) = fieldKeys m := by
  unfold formatFieldMap fieldKeys
  rw [List.map_map]
  rfl

theorem fieldFromLine_mem (fns : List String) (cur line : String) (hc : cur ∈ fns) :
    (fieldFromLine fns cur line).2 ∈ fns := by
  unfold fieldFromLine
  cases hfind : fns.find? (fun f => strStarts line (f ++ ":")) with
  | none => simpa using hc
  | some f => simpa using List.mem_of_find?_eq_some hfind

theorem noteFieldsLoop_keys (fns : List String) (lines : List String) :
    ∀ (m : List (String × String)) (cur : String),
      fieldKeys m = fns → cur ∈ fns →
      fieldKeys (noteFieldsLoop fns m cur lines).1 = fns := by
  induction lines with
  | nil => intro m cur hm _; simpa [noteFieldsLoop] using hm
  | cons line rest ih =>
    intro m cur hm hc
    have hp := fieldFromLine_mem fns cur line hc
    have hkeys := fieldKeys_jsAddToField (fieldFromLine fns cur line).2
      ((fieldFromLine fns cur line).1 ++ "\n") m (by rw [hm]; exact hp)
    simpa [noteFieldsLoop] using ih _ _ (hkeys.trans hm) hp

theorem inlineFieldsLoop_keys (fns : List String) (words : List String) :
    ∀ (m : List (String × String)) (cur : String),
      fieldKeys m = fns → cur ∈ fns →
      fieldKeys (inlineFieldsLoop fns m cur words).1 = fns := by
  induction words with
  | nil => intro m cur hm _; simpa [inlineFieldsLoop] using hm
  | cons word rest ih =>
    intro m cur hm hc
    have hcur : ((fns.find? (fun f => word = f ++ ":")).getD cur) ∈ fns := by
      cases hfind : fns.find? (fun f => word = f ++ ":") with
      | none => simpa using hc
      | some f => simpa using List.mem_of_find?_eq_some hfind
    have hkeys := fieldKeys_jsAddToField ((fns.find? (fun f => word = f ++ ":")).getD cur)
      ((if (fns.find? (fun f => word = f ++ ":")).isSome then "" else word) ++ " ") m
      (by rw [hm]; exact hcur)
    simpa [inlineFieldsLoop] using ih _ _ (hkeys.trans hm) hcur

theorem regexAssignLoop_keys (fns : List String) (groups : List (Option String)) :
    ∀ (m : List (String × String)) (i : Nat),
      fieldKeys m = fns → i + groups.length ≤ fns.length →
      fieldKeys (regexAssignLoop fns m i groups) = fns := by
  induction groups with
  | nil => intro m i hm _; simpa [regexAssignLoop] using hm
  | cons g rest ih =>
    intro m i hm hlen
    have hi : i < fns.length := by
      exact Nat.lt_of_lt_of_le (by simp_arith) hlen
    have hmem : keyStr (fns.get? i) ∈ fns := by
      rw [List.get?_eq_get hi]
      simp [keyStr]
    have hlen' : (i + 1) + rest.length ≤ fns.length := by
      simpa [Nat.add_right_comm] using hlen
    cases g with
    | none =>
      have hkeys := fieldKeys_jsSet (keyStr (fns.get? i)) "" m (by rw [hm]; exact hmem)
      simpa [regexAssignLoop] using ih _ (i + 1) (hkeys.trans hm) hlen'
    | some s =>
      have hkeys := fieldKeys_jsSet (keyStr (fns.get? i)) (if s = "" then "" else s) m
        (by rw [hm]; exact hmem)
      simpa [regexAssignLoop] using ih _ (i + 1) (hkeys.trans hm) hlen'

/-- `leadsWith` holds of a list against itself followed by anything. -/
theorem leadsWith_append_self (g t : List Char) : leadsWith g (g ++ t) = true := by
  induction g with
  | nil => rfl
  | cons a as ih => simp [leadsWith, ih]

theorem strIndexOfAux_first (g suf : List Char) (pre : List Char) :
    ∀ (k : Nat),
      (∀ i, i < pre.length → leadsWith g ((pre ++ g ++ suf).drop i) = false) →
      strIndexOfAux g (pre ++ g ++ suf) k = some (k + pre.length) := by
  induction pre with
  | nil =>
    intro k _
    unfold strIndexOfAux
    simp [leadsWith_append_self]
  | cons c pre' ih =>
    intro k h
    have h0 : leadsWith g (c :: (pre' ++ g ++ suf)) = false := by
      simpa using h 0 (by simp)
    unfold strIndexOfAux
    simp only [List.cons_append, h0]
    have := ih (k + 1) (fun i hi => by
      simpa using h (i + 1) (by simpa using Nat.succ_lt_succ hi))
    simp only [Bool.false_eq_true, if_false]
    rw [this]
    simp_arith

theorem strIndexOf_first (g pre suf : List Char)
    (h : ∀ i, i < pre.length → leadsWith g ((pre ++ g ++ suf).drop i) = false) :
    strIndexOf (pre ++ g ++ suf) g = some pre.length := by
  simpa using strIndexOfAux_first g suf pre 0 h

/-- `fix_newline_ids` fixes any text with no `double_regexp` match. -/
theorem fixNewlineScan_id (fuel : Nat) :
    ∀ (cs : List Char), noDoubleMatch cs = true → fixNewlineScan fuel cs = cs := by
  induction fuel with
  | zero => intro cs _; rfl
  | succ n ih =>
    intro cs h
    cases cs with
    | nil => rfl
    | cons c rest =>
      have h' : (doubleMatchAt (c :: rest)).isNone = true ∧ noDoubleMatch rest = true := by
        simpa [noDoubleMatch, Bool.and_eq_true] using h
      have hnone : doubleMatchAt (c :: rest) = none := by
        simpa [Option.isNone_iff_eq_none] using h'.1
      simp [fixNewlineScan, hnone, ih rest h'.2]

/-- `inlineTypeFind` fails on bracket-free text. -/
theorem inlineTypeFind_no_bracket :
    ∀ (cs : List Char), cs.contains '[' = false → inlineTypeFind cs = none := by
  intro cs
  induction cs with
  | nil => intro _; rfl
  | cons c rest ih =>
    intro h
    have h' : ¬ (c = '[') ∧ rest.contains '[' = false := by
      constructor
      · intro hc
        subst hc
        simp [List.contains_cons] at h
      · simp [List.contains_cons] at h
        simpa using h.2
    simp [inlineTypeFind, h'.1, ih h'.2]

/-- Sample settings used by the concrete instances below. -/
def sampleData : FileData := {
  fields_dict := [("Basic", ["Front", "Back"]), ("Cloze", ["Text", "Back Extra"])]
  curly_cloze := true
  highlights_to_cloze := false
  template := { modelName := none, deckName := "Default",
                fields := [("Front", ""), ("Back", "")], tags := [] }
  file_link_fields := []
  context_fields := []
  add_obs_tags := false
  EXISTING_IDS := []
  comment := false }

/-! ## Claims -/

/-- C1, counterexample: the claim states that formatting `\x7bhello\x7d and
\x7bworld\x7d` with cloze conversion enabled and no explicit numbers yields
`\x7b\x7bc1::hello\x7d\x7d and \x7b\x7bc2::world\x7d\x7d` (auto-incrementing
numbers).  In the code the increment of `clozeUnsetNum` is commented out, so
BOTH unnumbered spans receive number 1: the conversion yields
`\x7b\x7bc1::hello\x7d\x7d and \x7b\x7bc1::world\x7d\x7d`, which differs from
the claimed output. -/
theorem c1_counterexample :
    (curly_to_cloze "\x7bhello\x7d and \x7bworld\x7d" 1).1
      = "\x7b\x7bc1::hello\x7d\x7d and \x7b\x7bc1::world\x7d\x7d"
    ∧ (curly_to_cloze "\x7bhello\x7d and \x7bworld\x7d" 1).1
      ≠ "\x7b\x7bc1::hello\x7d\x7d and \x7b\x7bc2::world\x7d\x7d" := by
  constructor
  · rfl
  · decide

/-- C1, amended: every unnumbered curly span receives the counter value at
call entry, and the counter is reset to 1 at the end of every
`curly_to_cloze` call (it starts at 1 and is never incremented), so every
unnumbered span of every call is numbered `c1`: formatting
`\x7bhello\x7d and \x7bworld\x7d` yields
`\x7b\x7bc1::hello\x7d\x7d and \x7b\x7bc1::world\x7d\x7d`, and a second
independent call (fed the counter left by the first) again starts at
`\x7b\x7bc1::...\x7d\x7d`. -/
theorem c1_amended :
    (∀ (text : String) (n : Nat), (curly_to_cloze text n).2 = 1)
    ∧ (curly_to_cloze "\x7bhello\x7d and \x7bworld\x7d" 1).1
        = "\x7b\x7bc1::hello\x7d\x7d and \x7b\x7bc1::world\x7d\x7d"
    ∧ (curly_to_cloze "\x7bfoo\x7d"
        (curly_to_cloze "\x7bhello\x7d and \x7bworld\x7d" 1).2).1
        = "\x7b\x7bc1::foo\x7d\x7d" := by
  exact ⟨fun text n => rfl, rfl, rfl⟩

/-- C2: the identifiers returned for the creation batch are meant to be read
per category at the offset equal to the number of creations in all earlier
categories (block, inline, pattern-defined, callout — the `all_notes_to_add`
concatenation order).  The callout branch of `writeIDs` reads
`note_ids[index]` with NO offset: with one block creation and one callout
creation and returned identifiers `[101, 102]`, the callout insert uses 101
(the block note's identifier) although position `0 + (1 + 0 + 0)` of
`note_ids` holds 102; the document ends up with `ID: 101` written at both
positions. -/
theorem c2_code_bug :
    buildInserts [3] [some 101, some 102] 0 (fun i => "> " ++ id_to_str i false false)
      = [(3, "> ID: 101\n")]
    ∧ [some 101, some 102].get? (0 + (1 + 0 + 0)) = some (some 102)
    ∧ writeIDs ⟨"a\nq", [1], [], [], [3], 1, 0, [some 101, some 102], false⟩
      = "aID: 101\n\nq> ID: 101\n"
    ∧ ("aID: 101\n\nq> ID: 101\n" : String) ≠ "aID: 101\n\nq> ID: 102\n" := by
  exact ⟨rfl, rfl, rfl, by decide⟩

theorem headD_mem (fns : List String) (h : fns ≠ []) : fns.headD "undefined" ∈ fns := by
  cases fns with
  | nil => exact absurd rfl h
  | cons a l => simp [List.headD]

/-- C3, counterexample: the claim states the field map's keys are exactly the
schema's field names for all four variants, "including the callout variant
when Front or Back is empty after stripping".  For the callout note
`> [!anki] #x` / `> 4` the Front capture is `#x`, empty after tag stripping,
and `CalloutNote.getFields` returns the EMPTY map — every schema key is
absent, not mapped to the empty string. -/
theorem c3_counterexample :
    CalloutNote_getFields "> [!anki] #x\n> 4" ["Front", "Back"] (fun s _ _ => s) false false
      = some []
    ∧ fieldKeys ([] : List (String × String)) ≠ ["Front", "Back"] := by
  exact ⟨rfl, by decide⟩

/-- C3, amended: for the block, inline and pattern-defined variants (with a
nonempty schema field list, and for pattern-defined notes at most as many
capture groups as fields) the key-set invariant holds; for the callout
variant it holds when Front and Back are both nonempty after stripping and
the schema contains the fixed `Front`/`Back` names — but when either is empty
the returned map is empty, with every key absent.  A field that receives no
content formats the empty string (last conjunct: a block note with no body
lines maps every schema field to `""`, for any formatter sending `""` to a
blank result). -/
theorem c3_amended :
    (∀ (fns split : List String) (nt : String) (fmt : Fmt) (c h : Bool),
        fns ≠ [] → fieldKeys (Note_getFields split fns nt fmt c h) = fns)
    ∧ (∀ (fns : List String) (text nt : String) (fmt : Fmt) (c h : Bool),
        fns ≠ [] → fieldKeys (InlineNote_getFields text fns nt fmt c h) = fns)
    ∧ (∀ (fns : List String) (m2 : List (Option String)) (nt : String) (fmt : Fmt) (c h : Bool),
        fns ≠ [] → m2.length ≤ fns.length + 1 →
        fieldKeys (RegexNote_getFields m2 fns nt fmt c h) = fns)
    ∧ (∀ (fns : List String) (text : String) (fmt : Fmt) (c h : Bool) (g : String × String),
        "Front" ∈ fns → "Back" ∈ fns →
        calloutMatch text.toList = some g →
        removeTags g.1 ≠ "" → removeBlockquotes g.2 ≠ "" →
        ∃ fm, CalloutNote_getFields text fns fmt c h = some fm ∧ fieldKeys fm = fns)
    ∧ (∀ (fns : List String) (nt : String) (fmt : Fmt) (c h : Bool),
        (∀ c2 h2, jsTrim (fmt "" c2 h2) = "") →
        Note_getFields [nt] fns nt fmt c h = fns.map (fun f => (f, ""))) := by
  refine ⟨?_, ?_, ?_, ?_, ?_⟩
  · intro fns split nt fmt c h hf
    unfold Note_getFields noteRawFields
    rw [fieldKeys_formatFieldMap]
    exact noteFieldsLoop_keys fns (split.drop 1) _ _ (fieldKeys_map_init fns) (headD_mem fns hf)
  · intro fns text nt fmt c h hf
    unfold InlineNote_getFields inlineRawFields
    rw [fieldKeys_formatFieldMap]
    exact inlineFieldsLoop_keys fns (jsSplitOn text " ") _ _ (fieldKeys_map_init fns)
      (headD_mem fns hf)
  · intro fns m2 nt fmt c h hf hlen
    unfold RegexNote_getFields
    rw [fieldKeys_formatFieldMap]
    refine regexAssignLoop_keys fns (m2.drop 1) _ 0 (fieldKeys_map_init fns) ?_
    have : (m2.drop 1).length = m2.length - 1 := by simp
    omega
  · intro fns text fmt c h g hF hB hm hfr hbk
    refine ⟨formatFieldMap
      (jsSet (jsSet (fns.map (fun f => (f, ""))) "Front" (removeTags g.1))
        "Back" (removeBlockquotes g.2)) fmt c h, ?_, ?_⟩
    · unfold CalloutNote_getFields
      rw [hm]
      simp [hfr, hbk]
    · rw [fieldKeys_formatFieldMap]
      have h1 : fieldKeys (jsSet (fns.map (fun f => (f, ""))) "Front" (removeTags g.1)) = fns :=
        (fieldKeys_jsSet _ _ _ (by rw [fieldKeys_map_init]; exact hF)).trans
          (fieldKeys_map_init fns)
      exact (fieldKeys_jsSet _ _ _ (by rw [h1]; exact hB)).trans h1
  · intro fns nt fmt c h hfmt
    unfold Note_getFields noteRawFields noteFieldsLoop formatFieldMap
    simp only [List.drop_succ_cons, List.drop_nil, List.map_map]
    refine List.map_congr_left ?_
    intro f _
    have h0 : jsTrim "" = "" := rfl
    simp only [Function.comp]
    rw [h0, hfmt]

/-- C3, witness: the amended claim at concrete inputs of all five kinds. -/
theorem c3_witness :
    fieldKeys (Note_getFields ["Basic", "Q"] ["Front", "Back"] "Basic"
        (fun s _ _ => s) false false) = ["Front", "Back"]
    ∧ fieldKeys (InlineNote_getFields " Q Back: A" ["Front", "Back"] "Basic"
        (fun s _ _ => s) false false) = ["Front", "Back"]
    ∧ fieldKeys (RegexNote_getFields [some "full", some "q"] ["Front", "Back"] "Basic"
        (fun s _ _ => s) false false) = ["Front", "Back"]
    ∧ (∃ fm, CalloutNote_getFields "> [!anki] Q\n> A" ["Front", "Back"]
        (fun s _ _ => s) false false = some fm ∧ fieldKeys fm = ["Front", "Back"])
    ∧ Note_getFields ["Basic"] ["Front", "Back"] "Basic" (fun s _ _ => s) false false
        = [("Front", ""), ("Back", "")] := by
  refine ⟨c3_amended.1 _ _ _ _ _ _ (by decide),
    c3_amended.2.1 _ _ _ _ _ _ (by decide),
    c3_amended.2.2.1 _ _ _ _ _ _ (by decide) (by decide),
    c3_amended.2.2.2.1 _ _ _ _ _ ("Q", "> A") (by decide) (by decide) (by decide)
      (by decide) (by decide),
    c3_amended.2.2.2.2 _ _ _ _ _ (fun c2 h2 => rfl)⟩

/-- C4, counterexample: the claim states dangling identifiers are reported
and dropped "for every genuine integer identifier that can occur in a
document (e.g. ID: 42 or ID: 69)".  But the sentinels are the ordinary
in-band integers 42 and 69: a block note carrying the literal marker
`ID: 42`, with 42 absent from the known-identifier snapshot, is silently
skipped with NO report (the scanner conflates it with the invalid-cloze
sentinel). -/
theorem c4_counterexample :
    (blockNoteInit "Basic\nfront text\nID: 42").2.1 = some 42
    ∧ scanNoteStep emptyScanState
        ({ modelName := some "Basic", deckName := "Default",
           fields := [("Front", "front text"), ("Back", "")], tags := [] }, some 42)
        0 "" [] = (emptyScanState, [])
    ∧ ([] : List Report) ≠ [Report.danglingId (some 42)] := by
  exact ⟨rfl, rfl, by decide⟩

/-- C4, amended: a present-but-unknown identifier is reported as dangling and
excluded from both lists for every identifier OTHER than the in-band sentinel
values: 42 (`CLOZE_ERROR`) is silently dropped without a report, and in the
block and callout scanners 69 (`NOTE_TYPE_ERROR`) is reported as an unknown
note type instead of a dangling reference (the inline scanner reports 69 as
dangling, having no unknown-type case). -/
theorem c4_amended :
    (∀ (st : ScanState) (note : AnkiNote) (pos : Nat) (gt : String) (ex : List Nat) (i : Nat),
        ex.contains i = false → i ≠ CLOZE_ERROR → i ≠ NOTE_TYPE_ERROR →
        scanNoteStep st (note, some i) pos gt ex = (st, [Report.danglingId (some i)]))
    ∧ (∀ (st : ScanState) (note : AnkiNote) (pos : Nat) (gt : String) (ex : List Nat) (i : Nat),
        ex.contains i = false → i ≠ CLOZE_ERROR →
        scanInlineNoteStep st (note, some i) pos gt ex = (st, [Report.danglingId (some i)]))
    ∧ (∀ (st : ScanState) (note : AnkiNote) (pos : Nat) (gt : String) (ex : List Nat) (i : Nat),
        ex.contains i = false → i ≠ CLOZE_ERROR → i ≠ NOTE_TYPE_ERROR →
        scanCalloutNoteStep st (note, some i) pos gt ex = (st, [Report.danglingId (some i)]))
    ∧ (∀ (st : ScanState) (note : AnkiNote) (pos : Nat) (gt : String) (ex : List Nat),
        ex.contains CLOZE_ERROR = false →
        scanNoteStep st (note, some CLOZE_ERROR) pos gt ex = (st, []))
    ∧ (∀ (st : ScanState) (note : AnkiNote) (pos : Nat) (gt : String) (ex : List Nat),
        ex.contains NOTE_TYPE_ERROR = false →
        scanNoteStep st (note, some NOTE_TYPE_ERROR) pos gt ex
          = (st, [Report.unknownType note.modelName])) := by
  refine ⟨?_, ?_, ?_, ?_, ?_⟩
  · intro st note pos gt ex i hex h42 h69
    simp at hex
    simp [scanNoteStep, hex, h42, h69]
  · intro st note pos gt ex i hex h42
    simp at hex
    simp [scanInlineNoteStep, hex, h42]
  · intro st note pos gt ex i hex h42 h69
    simp at hex
    simp [scanCalloutNoteStep, hex, h42, h69]
  · intro st note pos gt ex hex
    simp at hex
    simp [scanNoteStep, hex]
  · intro st note pos gt ex hex
    simp [NOTE_TYPE_ERROR] at hex
    simp [scanNoteStep, hex, CLOZE_ERROR, NOTE_TYPE_ERROR]

/-- C4, witness: the amended claim at concrete inputs. -/
theorem c4_witness :
    scanNoteStep emptyScanState (⟨some "Basic", "Default", [], []⟩, some 999) 0 "" [5]
      = (emptyScanState, [Report.danglingId (some 999)])
    ∧ scanInlineNoteStep emptyScanState (⟨some "Basic", "Default", [], []⟩, some 999) 0 "" [5]
      = (emptyScanState, [Report.danglingId (some 999)])
    ∧ scanCalloutNoteStep emptyScanState (⟨some "Basic", "Default", [], []⟩, some 999) 0 "" [5]
      = (emptyScanState, [Report.danglingId (some 999)])
    ∧ scanNoteStep emptyScanState (⟨some "Basic", "Default", [], []⟩, some 42) 0 "" [5]
      = (emptyScanState, [])
    ∧ scanNoteStep emptyScanState (⟨some "Basic", "Default", [], []⟩, some 69) 0 "" [5]
      = (emptyScanState, [Report.unknownType (some "Basic")]) := by
  refine ⟨c4_amended.1 _ _ _ _ _ _ (by decide) (by decide) (by decide),
    c4_amended.2.1 _ _ _ _ _ _ (by decide) (by decide),
    c4_amended.2.2.1 _ _ _ _ _ _ (by decide) (by decide) (by decide),
    c4_amended.2.2.2.1 _ _ _ _ _ (by decide),
    c4_amended.2.2.2.2 _ _ _ _ _ (by decide)⟩

/-- C5, counterexample: the claim covers "every pattern-defined match" whose
type is a cloze type with no cloze markers.  On an identifier-bearing pass
(`searchId = true`), the overwritten sentinel identifier 42 is compared
against the known-identifier snapshot: if the snapshot happens to contain 42,
the invalid-cloze note is ADDED to the update list and its claimed span is
NOT released — contradicting "added to neither list" and "span released". -/
theorem c5_counterexample :
    searchStep emptyScanState ⟨[some "Q no markers", some "plain", some "7"], 5⟩ "Cloze"
        false true { sampleData with EXISTING_IDS := [42] } (fun s _ _ => s)
        "Deck" "" "" "" []
      = ({ emptyScanState with
            notes_to_edit :=
              [(⟨some "Cloze", "Deck", [("Text", "plain"), ("Back Extra", "")], []⟩, some 42)],
            ignore_spans := [(5, 17)] }, [])
    ∧ ({ emptyScanState with
            notes_to_edit :=
              [(⟨some "Cloze", "Deck", [("Text", "plain"), ("Back Extra", "")], []⟩, some 42)],
            ignore_spans := [(5, 17)] } : ScanState) ≠ emptyScanState := by
  exact ⟨rfl, by decide⟩

/-- C5, amended: provided the sentinel value 42 (`CLOZE_ERROR`) is not among
the known identifiers, a pattern-defined match whose resolved type name
contains "cloze" case-insensitively and whose assembled fields contain no
cloze markers parses to the invalid-cloze sentinel, and the search step
leaves the scan state exactly as it was: nothing is added to any list and
the span claimed for the match is popped back off the registry.  (The two
`isSome` hypotheses pin the paths on which the JS code would not throw: the
note type present in the schema, and the frozen-field dictionary either
empty or containing the type.) -/
theorem c5_amended (st : ScanState) (m : RegexMatchArr) (nt : String) (stags sid : Bool)
    (d : FileData) (fmt : Fmt) (deck url context gt : String)
    (frozen : List (String × List (String × String)))
    (hcloze : isClozeType (some nt) = true)
    (hnc : note_has_clozes (regexAssembleFields d nt
        (RegexNote_getFields (regexNoteInit m.arr stags sid).1
          ((lookupA d.fields_dict nt).getD []) nt fmt d.curly_cloze d.highlights_to_cloze)
        url context frozen) = false)
    (_hfound : (lookupA d.fields_dict nt).isSome = true)
    (_hfrozen : frozen = [] ∨ (lookupA frozen nt).isSome = true)
    (hex : d.EXISTING_IDS.contains CLOZE_ERROR = false) :
    (RegexNote_parse m.arr nt d stags sid fmt deck url context frozen).2 = some CLOZE_ERROR
    ∧ searchStep st m nt stags sid d fmt deck url context gt frozen = (st, []) := by
  have hid : (RegexNote_parse m.arr nt d stags sid fmt deck url context frozen).2
      = some CLOZE_ERROR := by
    unfold RegexNote_parse
    simp [hcloze, hnc]
  refine ⟨hid, ?_⟩
  simp at hex
  unfold searchStep
  cases sid with
  | true =>
    simp only [hid, if_true]
    simp [jsIncludes, hex, List.dropLast_concat]
  | false =>
    simp [hid, List.dropLast_concat]

/-- C5, witness: the amended claim at a concrete invalid-cloze match. -/
theorem c5_witness :
    (RegexNote_parse [some "Q no markers", some "plain"] "Cloze" sampleData false false
        (fun s _ _ => s) "Deck" "" "" []).2 = some CLOZE_ERROR
    ∧ searchStep emptyScanState ⟨[some "Q no markers", some "plain"], 0⟩ "Cloze"
        false false sampleData (fun s _ _ => s) "Deck" "" "" "" []
      = (emptyScanState, []) :=
  c5_amended emptyScanState ⟨[some "Q no markers", some "plain"], 0⟩ "Cloze" false false
    sampleData (fun s _ _ => s) "Deck" "" "" "" []
    (by decide) (by decide) (by decide) (Or.inl rfl) (by decide)

/-- C6, counterexample: `writeIDs` with an empty creation list still runs the
blank-line-collapse pass (`fix_newline_ids`) over the whole document, so a
document that already contains a blank line directly before an
identifier-marker line is modified: `a\n\nID: 1` becomes `a\nID: 1`. -/
theorem c6_counterexample :
    writeIDs ⟨"a\n\nID: 1", [], [], [], [], 0, 0, [], false⟩ = "a\nID: 1"
    ∧ ("a\nID: 1" : String) ≠ "a\n\nID: 1" := by
  exact ⟨rfl, by decide⟩

/-- C6, amended: with an empty creation list the multi-position insertion
itself leaves the text unchanged, and the whole write-back equals just the
blank-line-collapse pass; the document is byte-identical whenever it contains
no blank-line-before-identifier-marker pattern (`noDoubleMatch`). -/
theorem c6_amended :
    (∀ (text : String), string_insert text [] = text)
    ∧ (∀ (f : String) (a b : Nat) (ids : List (Option Nat)) (cm : Bool),
        writeIDs ⟨f, [], [], [], [], a, b, ids, cm⟩ = fix_newline_ids f)
    ∧ (∀ (f : String), noDoubleMatch f.toList = true →
        writeIDs ⟨f, [], [], [], [], 0, 0, [], false⟩ = f) := by
  refine ⟨fun text => rfl, fun f a b ids cm => rfl, ?_⟩
  intro f h
  show fix_newline_ids (string_insert f []) = f
  have h1 : string_insert f [] = f := rfl
  rw [h1]
  unfold fix_newline_ids
  rw [fixNewlineScan_id _ _ h]
  rfl

/-- C6, witness: the amended claim on a document with no such pattern. -/
theorem c6_witness :
    string_insert "hello world" [] = "hello world"
    ∧ writeIDs ⟨"hello world", [], [], [], [], 0, 0, [], false⟩ = "hello world" :=
  ⟨c6_amended.1 "hello world", c6_amended.2.2 "hello world" (by decide)⟩

/-- C7, counterexample: for a pattern-defined note matched WITH a tag suffix
(full match `body\nTags: a b`, note-body capture `body`), the recorded
insertion position is 14 — the end of the whole match, after the tag
suffix — not 4, the end of the note-body capture that the claim requires. -/
theorem c7_counterexample :
    (searchStep emptyScanState ⟨[some "body\nTags: a b", some "body", some "Tags: a b"], 0⟩
        "Basic" true false sampleData (fun s _ _ => s) "Deck" "" "" "" []).1.regex_id_indexes
      = [14]
    ∧ captureEndPosition ⟨0, "body\nTags: a b", "body"⟩ = 4
    ∧ (14 : Nat) ≠ 4 := by
  exact ⟨rfl, rfl, by decide⟩

/-- C7, amended: for block, inline and callout notes the recorded position is
the end of the first capture group — provided the captured text's first
occurrence inside the match is its actual position, it equals
`index + |prefix| + |capture|`, immediately after the content and before any
trailing marker text consumed by the match; for pattern-defined notes the
recorded position is `match.index + match[0].length`, the end of the WHOLE
match including any tag suffix. -/
theorem c7_amended :
    (∀ (idx : Nat) (pre g suf : String),
        (∀ i, i < pre.length →
          leadsWith g.toList ((pre ++ g ++ suf).toList.drop i) = false) →
        captureEndPosition ⟨idx, pre ++ g ++ suf, g⟩ = idx + pre.length + g.length)
    ∧ (∀ (st : ScanState) (m : RegexMatchArr) (nt : String) (stags : Bool) (d : FileData)
        (fmt : Fmt) (deck url context gt : String)
        (frozen : List (String × List (String × String))),
        (RegexNote_parse m.arr nt d stags false fmt deck url context frozen).2
          ≠ some CLOZE_ERROR →
        (searchStep st m nt stags false d fmt deck url context gt frozen).1.regex_id_indexes
          = st.regex_id_indexes ++ [m.index + regexFullLength m]) := by
  constructor
  · intro idx pre g suf h
    unfold captureEndPosition strIndexOf
    have hdata : (pre ++ g ++ suf).toList = pre.toList ++ g.toList ++ suf.toList := by
      simp [String.toList, String.data_append]
    have hlen : pre.length = pre.toList.length := rfl
    rw [hdata]
    rw [strIndexOfAux_first g.toList suf.toList pre.toList 0
      (fun i hi => by
        rw [← hdata]
        exact h i (by rw [hlen]; exact hi))]
    simp only [Option.getD_some, Nat.zero_add]
    rfl
  · intro st m nt stags d fmt deck url context gt frozen hne
    unfold searchStep
    simp [hne]

/-- C7, witness: the amended claim at concrete inputs for both parts. -/
theorem c7_witness :
    captureEndPosition ⟨0, "ab" ++ "cd" ++ "ef", "cd"⟩ = 0 + "ab".length + "cd".length
    ∧ (searchStep emptyScanState ⟨[some "x", some "x"], 2⟩ "Basic" false false sampleData
        (fun s _ _ => s) "Deck" "" "" "" []).1.regex_id_indexes
      = emptyScanState.regex_id_indexes ++ [2 + regexFullLength ⟨[some "x", some "x"], 2⟩] :=
  ⟨c7_amended.1 0 "ab" "cd" "ef" (by decide),
   c7_amended.2 emptyScanState ⟨[some "x", some "x"], 2⟩ "Basic" false sampleData
     (fun s _ _ => s) "Deck" "" "" "" [] (by decide)⟩

/-- C8, counterexample: the claim states every extractor operation returns a
payload or a sentinel outcome and never throws, "in particular inline-note
extraction on text containing no bracketed [ ... ] type token still returns
the designated no-such-type outcome".  `InlineNote.getNoteType` on such text
dereferences `result.index` on a `null` match and THROWS a TypeError
(modelled by `none`): no outcome of any kind is returned. -/
theorem c8_counterexample :
    InlineNote_getNoteType "What is 2+2 4" = none
    ∧ (∀ (r : String × String), InlineNote_getNoteType "What is 2+2 4" ≠ some r) := by
  refine ⟨rfl, fun r h => ?_⟩
  rw [show InlineNote_getNoteType "What is 2+2 4" = none from rfl] at h
  exact Option.noConfusion h

/-- C8, amended: inline-note type resolution on text with no bracketed token
throws (modelled: yields `none`) instead of returning the no-such-type
outcome; block-note extraction with an unknown type label does return the
unknown-type sentinel without any exception. -/
theorem c8_amended :
    (∀ (t : String), t.toList.contains '[' = false → InlineNote_getNoteType t = none)
    ∧ (∀ (text : String) (d : FileData) (fmt : Fmt) (deck url context : String)
        (frozen : List (String × List (String × String))),
        lookupA d.fields_dict (keyStr (blockNoteInit text).1.head?) = none →
        Note_parse text d fmt deck url frozen context
          = ({ d.template with modelName := (blockNoteInit text).1.head? },
             some NOTE_TYPE_ERROR)) := by
  constructor
  · intro t h
    unfold InlineNote_getNoteType
    rw [inlineTypeFind_no_bracket _ h]
  · intro text d fmt deck url context frozen hlk
    unfold Note_parse
    simp [hlk]

/-- C8, witness: the amended claim at concrete inputs. -/
theorem c8_witness :
    InlineNote_getNoteType "What is 2+2. 4" = none
    ∧ Note_parse "Mystery\nfront" sampleData (fun s _ _ => s) "Deck" "" [] ""
      = ({ sampleData.template with modelName := some "Mystery" }, some NOTE_TYPE_ERROR) :=
  ⟨c8_amended.1 "What is 2+2. 4" (by decide),
   c8_amended.2 "Mystery\nfront" sampleData (fun s _ _ => s) "Deck" "" "" [] (by decide)⟩

/-- C9, counterexample: parsing an unknown-type block note yields the
sentinel 69 with the template untouched — but when 69 happens to be in the
known-identifier snapshot, the scanner ADDS the note to the update list
(`notes_to_edit`), contradicting "added to neither the creation nor the
update list". -/
theorem c9_counterexample :
    Note_parse "Mystery\nfront text" sampleData (fun s _ _ => s) "Deck" "" [] ""
      = ({ sampleData.template with modelName := some "Mystery" }, some NOTE_TYPE_ERROR)
    ∧ scanNoteStep emptyScanState
        ({ sampleData.template with modelName := some "Mystery" }, some 69) 0 "" [69]
      = ({ emptyScanState with
            notes_to_edit :=
              [({ sampleData.template with modelName := some "Mystery" }, some 69)] }, [])
    ∧ ({ emptyScanState with
            notes_to_edit :=
              [({ sampleData.template with modelName := some "Mystery" }, some 69)] } : ScanState)
        ≠ emptyScanState := by
  exact ⟨rfl, rfl, by decide⟩

/-- C9, amended: a block note whose first line is not a schema key parses to
the cloned template with only the model name set — the template's field
content is untouched, field extraction never runs — together with the
sentinel `NOTE_TYPE_ERROR`; and PROVIDED 69 is not among the known
identifiers, the scanner reports the unknown type and adds the note to
neither list. -/
theorem c9_amended :
    (∀ (text : String) (d : FileData) (fmt : Fmt) (deck url context : String)
        (frozen : List (String × List (String × String))),
        lookupA d.fields_dict (keyStr (blockNoteInit text).1.head?) = none →
        (Note_parse text d fmt deck url frozen context).1.fields = d.template.fields
        ∧ (Note_parse text d fmt deck url frozen context).2 = some NOTE_TYPE_ERROR)
    ∧ (∀ (st : ScanState) (note : AnkiNote) (pos : Nat) (gt : String) (ex : List Nat),
        ex.contains NOTE_TYPE_ERROR = false →
        scanNoteStep st (note, some NOTE_TYPE_ERROR) pos gt ex
          = (st, [Report.unknownType note.modelName])) := by
  constructor
  · intro text d fmt deck url context frozen hlk
    unfold Note_parse
    simp [hlk]
  · intro st note pos gt ex hex
    simp [NOTE_TYPE_ERROR] at hex
    simp [scanNoteStep, hex, CLOZE_ERROR, NOTE_TYPE_ERROR]

/-- C9, witness: the amended claim at a concrete unknown-type block note. -/
theorem c9_witness :
    (Note_parse "Mystery\nfront" sampleData (fun s _ _ => s) "Deck" "" [] "").1.fields
      = sampleData.template.fields
    ∧ (Note_parse "Mystery\nfront" sampleData (fun s _ _ => s) "Deck" "" [] "").2
      = some NOTE_TYPE_ERROR
    ∧ scanNoteStep emptyScanState (⟨some "Mystery", "Default", [], []⟩, some 69) 0 "" []
      = (emptyScanState, [Report.unknownType (some "Mystery")]) := by
  obtain ⟨h1, h2⟩ := c9_amended.1 "Mystery\nfront" sampleData (fun s _ _ => s) "Deck" "" "" []
    (by decide)
  exact ⟨h1, h2, c9_amended.2 emptyScanState ⟨some "Mystery", "Default", [], []⟩ 0 "" []
    (by decide)⟩

/-- C10: with no global tag marker the document-global tag string is `''`,
splitting it on the tag separator yields the one-element list `[""]`, and
every creation-candidate note of every variant gets that empty-string entry
appended to its tag list. -/
theorem c10_global_tags :
    setup_global_tags none = ""
    ∧ jsSplitOn "" TAG_SEP = [""]
    ∧ (∀ (st : ScanState) (note : AnkiNote) (pos : Nat) (ex : List Nat),
        scanNoteStep st (note, none) pos (setup_global_tags none) ex
          = ({ st with
                notes_to_add := st.notes_to_add ++ [{ note with tags := note.tags ++ [""] }],
                id_indexes := st.id_indexes ++ [pos] }, []))
    ∧ (∀ (st : ScanState) (note : AnkiNote) (pos : Nat) (ex : List Nat),
        scanInlineNoteStep st (note, none) pos (setup_global_tags none) ex
          = ({ st with
                inline_notes_to_add :=
                  st.inline_notes_to_add ++ [{ note with tags := note.tags ++ [""] }],
                inline_id_indexes := st.inline_id_indexes ++ [pos] }, []))
    ∧ (∀ (st : ScanState) (note : AnkiNote) (pos : Nat) (ex : List Nat),
        scanCalloutNoteStep st (note, none) pos (setup_global_tags none) ex
          = ({ st with
                callout_notes_to_add :=
                  st.callout_notes_to_add ++ [{ note with tags := note.tags ++ [""] }],
                callout_id_indexes := st.callout_id_indexes ++ [pos] }, []))
    ∧ (∀ (st : ScanState) (m : RegexMatchArr) (nt : String) (stags : Bool) (d : FileData)
        (fmt : Fmt) (deck url context : String)
        (frozen : List (String × List (String × String))),
        (RegexNote_parse m.arr nt d stags false fmt deck url context frozen).2
          ≠ some CLOZE_ERROR →
        (searchStep st m nt stags false d fmt deck url context (setup_global_tags none)
            frozen).1.regex_notes_to_add
          = st.regex_notes_to_add
            ++ [{ (RegexNote_parse m.arr nt d stags false fmt deck url context frozen).1 with
                  tags := (RegexNote_parse m.arr nt d stags false fmt deck url context
                    frozen).1.tags ++ [""] }]) := by
  refine ⟨rfl, rfl, fun st note pos ex => rfl, fun st note pos ex => rfl,
    fun st note pos ex => rfl, ?_⟩
  intro st m nt stags d fmt deck url context frozen hne
  unfold searchStep
  simp [hne]
  rfl

/-- C10, witness: the theorem at concrete inputs, discharging the
hypothesis of the pattern-defined conjunct. -/
theorem c10_witness :
    scanNoteStep emptyScanState (⟨some "Basic", "Default", [], ["t"]⟩, none) 7
        (setup_global_tags none) []
      = ({ emptyScanState with
            notes_to_add := [⟨some "Basic", "Default", [], ["t", ""]⟩],
            id_indexes := [7] }, [])
    ∧ (searchStep emptyScanState ⟨[some "x", some "x"], 0⟩ "Basic" false false sampleData
        (fun s _ _ => s) "Deck" "" "" (setup_global_tags none) []).1.regex_notes_to_add
      = emptyScanState.regex_notes_to_add
        ++ [{ (RegexNote_parse [some "x", some "x"] "Basic" sampleData false false
              (fun s _ _ => s) "Deck" "" "" []).1 with
              tags := (RegexNote_parse [some "x", some "x"] "Basic" sampleData false false
                (fun s _ _ => s) "Deck" "" "" []).1.tags ++ [""] }] :=
  ⟨c10_global_tags.2.2.1 emptyScanState ⟨some "Basic", "Default", [], ["t"]⟩ 7 [],
   c10_global_tags.2.2.2.2.2 emptyScanState ⟨[some "x", some "x"], 0⟩ "Basic" false
     sampleData (fun s _ _ => s) "Deck" "" "" [] (by decide)⟩
